import Mathlib

/-!
Verification development for the voice-biometric core of the `daw_backend`
repository (`voice_processing.py`, `auth.py`, `mongodb_client.py`).

Modelling conventions:
* float values are idealized as exact rationals (`ℚ`); the one genuinely
  irrational operation, the square root inside the cosine similarity, is
  modelled over `ℝ` with `Real.sqrt`;
* embeddings (`numpy` vectors / Mongo lists) are `List ℚ`;
* Python functions that can `raise` are modelled with explicit outcome
  types (`Except ℕ` for the inner `try` bodies, where the `ℕ` is the HTTP
  status of the raised `HTTPException`, and `PyOutcome` for what the caller
  of the whole function observes);
* external library calls (librosa load, resemblyzer `preprocess_wav` and
  `embed_utterance`, pydub silence chunks) are oracle inputs carried in an
  environment record, exactly one per call site;
* the file system is a list of path names (contents tracked separately
  where a claim needs them).
-/

/-- Embedding vector: a numpy vector / Mongo list of floats, idealized as `List ℚ`. -/
abbrev Emb := List ℚ

/-! ### SimilarityScorer: `compare_voices` (voice_processing.py lines 598-652) -/

/-- Dot product `np.dot`-style of two vectors (via the scipy cosine distance). -/
def dotQ (a b : Emb) : ℚ := (List.zipWith (· * ·) a b).sum

/-- Sum of squares of the components; `‖a‖²` as computed inside `scipy.spatial.distance.cosine`. -/
def normSq (a : Emb) : ℚ := (a.map (fun x => x * x)).sum

/-- The `1e-10` cutoff used by the degenerate-vector guard in `compare_voices`. -/
def nearZeroEps : ℚ := 1 / 10 ^ 10

/-- `np.all(np.abs(embedding) < 1e-10)`: every component is below the cutoff. -/
def IsNearZero (a : Emb) : Prop := ∀ x ∈ a, |x| < nearZeroEps

instance (a : Emb) : Decidable (IsNearZero a) := List.decidableBAll _ a

/-- The dictionary `{"similarity": float, "match": bool}` returned by `compare_voices`. -/
structure CompareResult where
  similarity : ℝ
  matched : Bool

/-- Raw cosine similarity `1 - scipy.cosine(e1, e2) = dot/(‖e1‖·‖e2‖)` over `ℝ`. -/
noncomputable def rawCosineSim (a b : Emb) : ℝ :=
  ((dotQ a b : ℚ) : ℝ) / (Real.sqrt ((normSq a : ℚ) : ℝ) * Real.sqrt ((normSq b : ℚ) : ℝ))

open Classical in
/-- `compare_voices(embedding1, embedding2, threshold)` from voice_processing.py:
empty-input guard, near-zero guard, a length-mismatch `scipy` exception caught by
the `except` branch (which returns similarity 0.0 / match False), then the cosine
similarity clamped to `[0,1]` and compared against the threshold. -/
noncomputable def compare_voices (e1 e2 : Emb) (t : ℚ) : CompareResult :=
  if e1.length = 0 ∨ e2.length = 0 then ⟨0, false⟩
  else if IsNearZero e1 ∨ IsNearZero e2 then ⟨0, false⟩
  else if e1.length ≠ e2.length then ⟨0, false⟩
  else
    let sim : ℝ := max 0 (min 1 (rawCosineSim e1 e2))
    ⟨sim, if (t : ℝ) ≤ sim then true else false⟩

lemma compare_voices_similarity_nonneg (e1 e2 : Emb) (t : ℚ) :
    0 ≤ (compare_voices e1 e2 t).similarity := by
  unfold compare_voices
  split_ifs <;> simp [le_max_left]

lemma compare_voices_similarity_le_one (e1 e2 : Emb) (t : ℚ) :
    (compare_voices e1 e2 t).similarity ≤ 1 := by
  unfold compare_voices
  split_ifs <;> simp [max_le_iff, min_le_left, zero_le_one]

lemma compare_voices_matched_iff (e1 e2 : Emb) (t : ℚ) (ht : 0 < t) :
    (compare_voices e1 e2 t).matched = true ↔
      (t : ℝ) ≤ (compare_voices e1 e2 t).similarity := by
  have htR : ¬ (t : ℝ) ≤ 0 := by exact_mod_cast not_le.mpr ht
  unfold compare_voices
  split_ifs with h1 h2 h3
  · simpa using htR
  · simpa using htR
  · simpa using htR
  · simp only []
    split_ifs with h4 <;> simp [h4]

lemma normSq_pos_of_not_nearZero (a : Emb) (h : ¬ IsNearZero a) : 0 < normSq a := by
  unfold IsNearZero at h
  push_neg at h
  obtain ⟨x, hx, hxe⟩ := h
  have hx2 : x * x ∈ a.map (fun y => y * y) := List.mem_map_of_mem _ hx
  have hnn : ∀ y ∈ a.map (fun z => z * z), (0:ℚ) ≤ y := by
    intro y hy
    obtain ⟨z, _, rfl⟩ := List.mem_map.mp hy
    exact mul_self_nonneg z
  have hle : x * x ≤ (a.map (fun y => y * y)).sum := List.single_le_sum hnn _ hx2
  have hxpos : 0 < x * x := by
    have : (0:ℚ) < |x| := lt_of_lt_of_le (by norm_num [nearZeroEps]) hxe
    calc (0:ℚ) < |x| * |x| := mul_pos this this
    _ = x * x := abs_mul_abs_self x
  exact lt_of_lt_of_le hxpos hle

lemma compare_voices_degenerate (e1 e2 : Emb) (t : ℚ)
    (h : IsNearZero e1 ∨ IsNearZero e2) :
    compare_voices e1 e2 t = ⟨0, false⟩ := by
  unfold compare_voices
  split_ifs with h1 <;> rfl

lemma compare_voices_empty (e1 e2 : Emb) (t : ℚ)
    (h : e1.length = 0 ∨ e2.length = 0) :
    compare_voices e1 e2 t = ⟨0, false⟩ := by
  unfold compare_voices
  rw [if_pos h]

/-! ### GalleryMatcher: the best-of-gallery loop
(voice_processing.py `verify_voice` lines 1060-1068, and the identical loop in
auth.py `login_with_voice` lines 562-569). -/

open Classical in
/-- The verification loop: starting from `best_similarity = 0, is_match = False`,
for each stored embedding compute `compare_voices` and keep the result whenever
its similarity strictly exceeds the best so far. -/
noncomputable def gallery_fold (input : Emb) (t : ℚ) (init : ℝ × Bool)
    (gallery : List Emb) : ℝ × Bool :=
  gallery.foldl
    (fun acc s =>
      let r := compare_voices input s t
      if acc.1 < r.similarity then (r.similarity, r.matched) else acc)
    init

/-- The list of similarities of the input against each stored gallery embedding. -/
noncomputable def similarity_list (input : Emb) (t : ℚ) (gallery : List Emb) : List ℝ :=
  gallery.map (fun s => (compare_voices input s t).similarity)

lemma le_foldl_max (l : List ℝ) (a : ℝ) : a ≤ l.foldl max a := by
  induction l generalizing a with
  | nil => simp [List.foldl]
  | cons x xs ih => exact le_trans (le_max_left a x) (ih (max a x))

lemma foldl_max_of_mem (l : List ℝ) (a : ℝ) : ∀ x ∈ l, x ≤ l.foldl max a := by
  induction l generalizing a with
  | nil => intro x hx; simp at hx
  | cons y ys ih =>
    intro x hx
    rcases List.mem_cons.mp hx with rfl | hmem
    · exact le_trans (le_max_right a x) (le_foldl_max ys (max a x))
    · exact ih (max a y) x hmem

lemma foldl_max_eq_or_mem (l : List ℝ) (a : ℝ) :
    l.foldl max a = a ∨ l.foldl max a ∈ l := by
  induction l generalizing a with
  | nil => exact Or.inl rfl
  | cons x xs ih =>
    have h := ih (max a x)
    rcases h with heq | hmem
    · rcases max_choice a x with hax | hax
      · exact Or.inl (by rw [List.foldl_cons, heq, hax])
      · exact Or.inr (by rw [List.foldl_cons, heq, hax]; exact List.mem_cons_self x xs)
    · exact Or.inr (List.mem_cons_of_mem x hmem)

lemma gallery_fold_fst (input : Emb) (t : ℚ) (gallery : List Emb) (init : ℝ × Bool) :
    (gallery_fold input t init gallery).1 =
      (similarity_list input t gallery).foldl max init.1 := by
  induction gallery generalizing init with
  | nil => rfl
  | cons s gs ih =>
    unfold gallery_fold similarity_list
    simp only [List.foldl_cons, List.map_cons]
    have step :
        (if init.1 < (compare_voices input s t).similarity
          then ((compare_voices input s t).similarity, (compare_voices input s t).matched)
          else init).1 = max init.1 (compare_voices input s t).similarity := by
      rcases lt_or_le init.1 (compare_voices input s t).similarity with hlt | hle
      · rw [if_pos hlt, max_eq_right hlt.le]
      · rw [if_neg (not_lt.mpr hle), max_eq_left hle]
    have := ih (if init.1 < (compare_voices input s t).similarity
      then ((compare_voices input s t).similarity, (compare_voices input s t).matched)
      else init)
    unfold gallery_fold similarity_list at this
    rw [this, step]

lemma gallery_fold_matched (input : Emb) (t : ℚ) (ht : 0 < t) (gallery : List Emb)
    (init : ℝ × Bool) (hinv : init.2 = true ↔ (t : ℝ) ≤ init.1) :
    ((gallery_fold input t init gallery).2 = true ↔
      (t : ℝ) ≤ (gallery_fold input t init gallery).1) := by
  induction gallery generalizing init with
  | nil => exact hinv
  | cons s gs ih =>
    unfold gallery_fold
    simp only [List.foldl_cons]
    have hnext : ((if init.1 < (compare_voices input s t).similarity
        then ((compare_voices input s t).similarity, (compare_voices input s t).matched)
        else init)).2 = true ↔
        (t : ℝ) ≤ (if init.1 < (compare_voices input s t).similarity
        then ((compare_voices input s t).similarity, (compare_voices input s t).matched)
        else init).1 := by
      split_ifs with hlt
      · exact compare_voices_matched_iff input s t ht
      · exact hinv
    have := ih (if init.1 < (compare_voices input s t).similarity
      then ((compare_voices input s t).similarity, (compare_voices input s t).matched)
      else init) hnext
    unfold gallery_fold at this
    exact this

lemma similarity_list_nonneg (input : Emb) (t : ℚ) (gallery : List Emb) :
    ∀ x ∈ similarity_list input t gallery, 0 ≤ x := by
  intro x hx
  obtain ⟨s, _, rfl⟩ := List.mem_map.mp hx
  exact compare_voices_similarity_nonneg input s t

lemma gallery_fold_mem (input : Emb) (t : ℚ) (gallery : List Emb) (hne : gallery ≠ []) :
    (gallery_fold input t (0, false) gallery).1 ∈ similarity_list input t gallery := by
  rw [gallery_fold_fst]
  rcases foldl_max_eq_or_mem (similarity_list input t gallery) (0 : ℝ) with heq | hmem
  · cases gallery with
    | nil => exact absurd rfl hne
    | cons s gs =>
      have hhead : (compare_voices input s t).similarity ∈
          similarity_list input t (s :: gs) := by
        unfold similarity_list
        simp
      have hle : (compare_voices input s t).similarity ≤
          (similarity_list input t (s :: gs)).foldl max 0 :=
        foldl_max_of_mem _ _ _ hhead
      have hge : 0 ≤ (compare_voices input s t).similarity :=
        compare_voices_similarity_nonneg input s t
      rw [heq] at hle
      have : (compare_voices input s t).similarity = (0:ℝ) := le_antisymm hle hge
      rw [heq, ← this]
      exact hhead
  · exact hmem

/-! ### EmbeddingProvider orchestration: `extract_embedding`
(voice_processing.py lines 469-596). The function first checks
`RESEMBLYZER_AVAILABLE` (outside any `try`, so that 503 propagates); the whole
remaining body sits in one `try` whose trailing `except Exception: return None`
catches every exception raised inside it, `HTTPException`s included. -/

/-- What a caller of a Python function observes: a raised `HTTPException`
with an HTTP status, or a returned value. -/
inductive PyOutcome (α : Type) where
  | raised (status : ℕ)
  | returned (val : α)
deriving DecidableEq

/-- Environment of one `extract_embedding` call: module state, file-system
facts about the audio path, and the outcomes of the external library calls. -/
structure ExtractEnv where
  /-- `RESEMBLYZER_AVAILABLE` module flag. -/
  resemblyzer_available : Bool
  /-- `os.path.exists(audio_path)`. -/
  file_exists : Bool
  /-- `os.path.getsize(audio_path)` in bytes. -/
  file_size : ℕ
  /-- whether `librosa.load` succeeds on the (preprocessed) file. -/
  load_ok : Bool
  /-- the signal `librosa.load` returns (after `preprocess_audio` rewrote the file). -/
  samples : List ℚ
  /-- the sample rate `librosa.load` returns. -/
  sr : ℕ
  /-- result of resemblyzer `preprocess_wav` (`none` = it raised). -/
  pwav : Option (List ℚ)
  /-- whether `get_voice_encoder()` returns a loaded encoder (`False` = the model
  failed to load or its silent-signal probe failed, so it returned `None`). -/
  encoder_available : Bool
  /-- the embedding the encoder produces (`none` = both the segmented call and
  the `embed_utterance` fallback raised, or the result was null/of a wrong type). -/
  embed_result : Option Emb
deriving DecidableEq

/-- Observable side effects of one `extract_embedding` call. -/
structure ExtractTrace where
  /-- `preprocess_audio(audio_path)` was invoked (partial processing happened). -/
  preprocess_attempted : Bool
  /-- content of the audio file when the call ends (the truncation step may
  overwrite it with the first 10 seconds). -/
  file_content : List ℚ
  /-- the encoder's embedding extraction was invoked. -/
  embed_called : Bool
deriving DecidableEq

/-- `15 * 1024 * 1024`: the 15 MB upload cap checked by `extract_embedding`. -/
def MAX_AUDIO_BYTES : ℕ := 15 * 1024 * 1024

/-- The tail of `extract_embedding`'s `try` body, from the resemblyzer
`preprocess_wav` call on: empty-wav check, `get_voice_encoder` check (raising
503 inside the `try`!), then the embedding extraction with its fallback
(`return None` on failure, lines 565-596). -/
def extract_embedding_rest (env : ExtractEnv) (content : List ℚ) :
    Except ℕ (Option Emb) × ExtractTrace :=
  match env.pwav with
  | none => (.error 400, ⟨true, content, false⟩)
  | some wav =>
    if wav.length = 0 then (.error 400, ⟨true, content, false⟩)
    else if env.encoder_available = false then (.error 503, ⟨true, content, false⟩)
    else
      match env.embed_result with
      | none => (.ok none, ⟨true, content, true⟩)
      | some emb => (.ok (some emb), ⟨true, content, true⟩)

/-- The `try` body of `extract_embedding` (lines 483-592): existence, emptiness
and 15 MB checks, the `preprocess_audio` call, the load/duration gate with its
10-second truncation and 1-second minimum, then `extract_embedding_rest`. -/
def extract_embedding_try (env : ExtractEnv) : Except ℕ (Option Emb) × ExtractTrace :=
  if env.file_exists = false then (.error 400, ⟨false, env.samples, false⟩)
  else if env.file_size = 0 then (.error 400, ⟨false, env.samples, false⟩)
  else if MAX_AUDIO_BYTES < env.file_size then (.error 400, ⟨false, env.samples, false⟩)
  else
    -- `preprocess_audio` runs here; a `False` result only logs a warning.
    if env.load_ok = false then (.error 400, ⟨true, env.samples, false⟩)
    else
      let y := env.samples
      let dur : ℚ := (y.length : ℚ) / (env.sr : ℚ)
      if 10 < dur then extract_embedding_rest env (y.take (10 * env.sr))
      else if dur < 1 then (.error 400, ⟨true, y, false⟩)
      else extract_embedding_rest env y

/-- `extract_embedding(audio_path)`: the availability precheck raises 503 to the
caller; everything else runs inside the `try` whose `except Exception` handler
turns any exception (including the internally raised `HTTPException`s) into a
returned `None`. -/
def extract_embedding (env : ExtractEnv) : PyOutcome (Option Emb) × ExtractTrace :=
  if env.resemblyzer_available = false then
    (.raised 503, ⟨false, env.samples, false⟩)
  else
    match extract_embedding_try env with
    | (.error _, tr) => (.returned none, tr)
    | (.ok v, tr) => (.returned v, tr)

lemma extract_embedding_available_of_returned (env : ExtractEnv) (v : Option Emb)
    (h : (extract_embedding env).1 = .returned v) :
    env.resemblyzer_available = true := by
  by_cases hav : env.resemblyzer_available = true
  · exact hav
  · have hfalse : env.resemblyzer_available = false := by
      cases hb : env.resemblyzer_available
      · rfl
      · exact absurd hb hav
    unfold extract_embedding at h
    rw [if_pos hfalse] at h
    simp at h

/-! ### Verification endpoint: `verify_voice` (voice_processing.py lines 994-1090).
The availability precheck raises 503; the whole body is a `try` whose
`except Exception` handler catches every inner `HTTPException` (there is no
`except HTTPException: raise` here) and re-raises a generic 500. -/

/-- Projection of the Mongo user document that `get_user_voice_data` returns:
`voice_embeddings` is `none` when the key is absent from the document. -/
structure VoiceDoc where
  voice_embeddings : Option (List Emb)
  voice_embedding : Option Emb
  voice_url : Option String
deriving DecidableEq

/-- Environment of one `verify_voice` call. -/
structure VerifyEnv where
  /-- environment for the `extract_embedding` call on the uploaded recording. -/
  audio : ExtractEnv
  /-- `mongo_client.get_user_voice_data(user_email)` (`none` = user not found). -/
  user_data : Option VoiceDoc

/-- What the HTTP caller of `verify_voice` observes. -/
inductive VerifyOutcome where
  | raised (status : ℕ)
  | result (similarity : ℝ) (matched : Bool) (threshold : ℚ)

/-- The `try` body of `verify_voice` (lines 1010-1083). The `Bool` component
records whether `extract_embedding` was invoked on the uploaded audio.
Inner raises: 400 when no embedding could be extracted, 404 when the user has
no voice record, then the best-of-gallery loop and the legacy single-embedding
fallback. -/
noncomputable def verify_voice_try (t : ℚ) (env : VerifyEnv) :
    Except ℕ (ℝ × Bool) × Bool :=
  -- `preprocess_audio` then `extract_embedding` run before any gallery lookup.
  match (extract_embedding env.audio).1 with
  | .raised s => (.error s, true)
  | .returned none => (.error 400, true)
  | .returned (some input) =>
    match env.user_data with
    | none => (.error 404, true)
    | some doc =>
      let gal := doc.voice_embeddings.getD []
      if gal = [] ∧ doc.voice_embedding = none then (.error 404, true)
      else
        let best := gallery_fold input t (0, false) gal
        let final :=
          if gal = [] then
            match doc.voice_embedding with
            | some legacy =>
              ((compare_voices input legacy t).similarity,
               (compare_voices input legacy t).matched)
            | none => best
          else best
        (.ok final, true)

/-- `verify_voice`: 503 if resemblyzer is unavailable, otherwise the `try` body
with every inner exception converted to a generic 500 by the final
`except Exception` handler. -/
noncomputable def verify_voice (t : ℚ) (env : VerifyEnv) : VerifyOutcome × Bool :=
  if env.audio.resemblyzer_available = false then (.raised 503, false)
  else
    match verify_voice_try t env with
    | (.error _, tr) => (.raised 500, tr)
    | (.ok (s, m), tr) => (.result s m t, tr)

/-- C1: for every non-empty gallery of stored embeddings and every input
embedding, verification scores the input against each stored embedding and
returns the maximum of those similarities, with the matched flag equal to
whether that maximum similarity crosses the acceptance threshold; there is no
averaging across the gallery. Stated for any positive threshold (the
configured default is 0.85). -/
theorem claim1_verification_returns_gallery_max (t : ℚ) (env : VerifyEnv)
    (input : Emb) (doc : VoiceDoc)
    (ht : 0 < t)
    (hex : (extract_embedding env.audio).1 = .returned (some input))
    (hdoc : env.user_data = some doc)
    (hgal : doc.voice_embeddings.getD [] ≠ []) :
    ∃ S M, verify_voice t env = (.result S M t, true) ∧
      S ∈ similarity_list input t (doc.voice_embeddings.getD []) ∧
      (∀ x ∈ similarity_list input t (doc.voice_embeddings.getD []), x ≤ S) ∧
      (M = true ↔ (t : ℝ) ≤ S) := by
  have hav := extract_embedding_available_of_returned env.audio (some input) hex
  have hcond : ¬ (doc.voice_embeddings.getD [] = [] ∧ doc.voice_embedding = none) :=
    fun hc => hgal hc.1
  rcases hp : gallery_fold input t (0, false) (doc.voice_embeddings.getD [])
    with ⟨S, M⟩
  have htry : verify_voice_try t env = (.ok (S, M), true) := by
    unfold verify_voice_try
    rw [hex, hdoc]
    simp only [if_neg hcond, if_neg hgal, hp]
  have hv : verify_voice t env = (.result S M t, true) := by
    unfold verify_voice
    rw [if_neg (by simp [hav]), htry]
  refine ⟨S, M, hv, ?_, ?_, ?_⟩
  · have := gallery_fold_mem input t (doc.voice_embeddings.getD []) hgal
    rw [hp] at this
    exact this
  · intro x hx
    have hfst := gallery_fold_fst input t (doc.voice_embeddings.getD []) (0, false)
    rw [hp] at hfst
    simp only [] at hfst
    rw [hfst]
    exact foldl_max_of_mem _ _ x hx
  · have hinv : ((0 : ℝ), false).2 = true ↔ (t : ℝ) ≤ ((0 : ℝ), false).1 := by
      constructor
      · intro hfalse; simp at hfalse
      · intro hle
        have : ¬ (t : ℝ) ≤ 0 := by exact_mod_cast not_le.mpr ht
        exact absurd hle this
    have := gallery_fold_matched input t ht (doc.voice_embeddings.getD [])
      (0, false) hinv
    rw [hp] at this
    exact this

/-- Concrete audio environment for the claim-1 witness: a 2-second two-sample
clip that extracts to the embedding `[1, 0]`. -/
def C1audio : ExtractEnv :=
  { resemblyzer_available := true, file_exists := true, file_size := 1000,
    load_ok := true, samples := List.replicate 2 1, sr := 1,
    pwav := some [1], encoder_available := true, embed_result := some [1, 0] }

/-- Concrete verification environment for the claim-1 witness: a two-entry
gallery. -/
def C1env : VerifyEnv :=
  { audio := C1audio, user_data := some ⟨some [[1, 0], [0, 1]], none, none⟩ }

/-- C1 witness: the theorem applied to a concrete two-entry gallery at the
configured default threshold 0.85. -/
theorem claim1_verification_returns_gallery_max_witness :
    (0 : ℚ) < 17/20 ∧
    (∃ S M, verify_voice (17/20) C1env = (.result S M (17/20), true) ∧
      S ∈ similarity_list [1, 0] (17/20) [[1, 0], [0, 1]] ∧
      (∀ x ∈ similarity_list [1, 0] (17/20) [[1, 0], [0, 1]], x ≤ S) ∧
      (M = true ↔ ((17/20 : ℚ) : ℝ) ≤ S)) :=
  ⟨by norm_num,
   claim1_verification_returns_gallery_max (17/20) C1env [1, 0]
     ⟨some [[1, 0], [0, 1]], none, none⟩
     (by norm_num)
     (by simp [C1env, C1audio, extract_embedding, extract_embedding_try,
       extract_embedding_rest, MAX_AUDIO_BYTES])
     rfl (by decide)⟩

/-- C7: appending additional embeddings to the gallery never decreases the best
(maximum) similarity kept by the verification loop; in particular the enrolled
voice scores at least as well against an augmented gallery as against the
single-seed gallery alone. -/
theorem claim7_gallery_monotonicity (input : Emb) (t : ℚ) (g1 g2 : List Emb) :
    (gallery_fold input t (0, false) g1).1 ≤
      (gallery_fold input t (0, false) (g1 ++ g2)).1 := by
  rw [gallery_fold_fst, gallery_fold_fst]
  have happ : similarity_list input t (g1 ++ g2) =
      similarity_list input t g1 ++ similarity_list input t g2 := by
    unfold similarity_list
    exact List.map_append _ g1 g2
  rw [happ, List.foldl_append]
  exact le_foldl_max _ _

/-- C5: for every pair of embedding vectors the similarity scorer returns a
similarity clamped to `[0,1]` with `match = (similarity ≥ threshold)`; for a
(near-)zero or degenerate (empty) input it returns similarity 0.0 and match
`False`; and whenever the near-zero guard passes, the squared norm — the
denominator of the cosine — is strictly positive, so no division by zero can
occur. Stated for any positive threshold (default 0.85). -/
theorem claim5_similarity_scorer_safe (t : ℚ) (ht : 0 < t) :
    (∀ e1 e2 : Emb,
      0 ≤ (compare_voices e1 e2 t).similarity ∧
      (compare_voices e1 e2 t).similarity ≤ 1 ∧
      ((compare_voices e1 e2 t).matched = true ↔
        (t : ℝ) ≤ (compare_voices e1 e2 t).similarity) ∧
      (IsNearZero e1 ∨ IsNearZero e2 → compare_voices e1 e2 t = ⟨0, false⟩) ∧
      (e1 = [] ∨ e2 = [] → compare_voices e1 e2 t = ⟨0, false⟩)) ∧
    (∀ e : Emb, ¬ IsNearZero e → 0 < normSq e) := by
  refine ⟨fun e1 e2 => ⟨compare_voices_similarity_nonneg e1 e2 t,
    compare_voices_similarity_le_one e1 e2 t,
    compare_voices_matched_iff e1 e2 t ht,
    compare_voices_degenerate e1 e2 t,
    fun h => compare_voices_empty e1 e2 t ?_⟩,
    normSq_pos_of_not_nearZero⟩
  rcases h with h | h
  · exact Or.inl (by rw [h]; rfl)
  · exact Or.inr (by rw [h]; rfl)

/-- C5 witness: the scorer-safety theorem instantiated at the configured
default threshold 0.85. -/
theorem claim5_similarity_scorer_safe_witness :
    (0 : ℚ) < 17/20 ∧
    ((∀ e1 e2 : Emb,
      0 ≤ (compare_voices e1 e2 (17/20)).similarity ∧
      (compare_voices e1 e2 (17/20)).similarity ≤ 1 ∧
      ((compare_voices e1 e2 (17/20)).matched = true ↔
        ((17/20 : ℚ) : ℝ) ≤ (compare_voices e1 e2 (17/20)).similarity) ∧
      (IsNearZero e1 ∨ IsNearZero e2 → compare_voices e1 e2 (17/20) = ⟨0, false⟩) ∧
      (e1 = [] ∨ e2 = [] → compare_voices e1 e2 (17/20) = ⟨0, false⟩)) ∧
    (∀ e : Emb, ¬ IsNearZero e → 0 < normSq e)) :=
  ⟨by norm_num, claim5_similarity_scorer_safe (17/20) (by norm_num)⟩

/-- Concrete audio environment for claim 2: a valid 2-second recording that
successfully extracts to the embedding `[1, 0]`. -/
def C2audio : ExtractEnv :=
  { resemblyzer_available := true, file_exists := true, file_size := 1000,
    load_ok := true, samples := List.replicate 2 1, sr := 1,
    pwav := some [1], encoder_available := true, embed_result := some [1, 0] }

/-- Concrete verification environment for claim 2: the user exists but has an
empty embedding gallery and no legacy embedding. -/
def C2env : VerifyEnv :=
  { audio := C2audio, user_data := some ⟨some [], none, none⟩ }

/-- C2 counterexample: for a user with an empty gallery, `verify_voice` DOES
attempt embedding extraction on the uploaded audio before the gallery check —
the second component of the result, which records that `extract_embedding` was
invoked, is `true` — refuting the claim that no embedding call is attempted;
moreover the surfaced status is a generic 500 (the inner 404 is swallowed by
the endpoint's `except Exception` handler), not a distinct NoEnrollment
status. -/
theorem claim2_counterexample :
    C2env.user_data = some ⟨some [], none, none⟩ ∧
    verify_voice (17/20) C2env = (.raised 500, true) := by
  constructor
  · rfl
  · simp [verify_voice, verify_voice_try, C2env, C2audio, extract_embedding,
      extract_embedding_try, extract_embedding_rest, MAX_AUDIO_BYTES]

/-- C2 (amended): verification for a user whose stored gallery is empty (and
who has no legacy single embedding) fails with an error outcome — internally
the distinct 404 "no voice record" error, surfaced as a generic 500 by the
endpoint's catch-all handler — and never returns a false-negative match
result; however, embedding extraction on the uploaded audio IS attempted
before the gallery check. -/
theorem claim2_empty_gallery_error_after_extraction (t : ℚ) (env : VerifyEnv)
    (doc : VoiceDoc) (input : Emb)
    (hex : (extract_embedding env.audio).1 = .returned (some input))
    (hdoc : env.user_data = some doc)
    (hempty : doc.voice_embeddings.getD [] = [])
    (hleg : doc.voice_embedding = none) :
    verify_voice_try t env = (.error 404, true) ∧
    verify_voice t env = (.raised 500, true) := by
  have hav := extract_embedding_available_of_returned env.audio (some input) hex
  have htry : verify_voice_try t env = (.error 404, true) := by
    unfold verify_voice_try
    rw [hex, hdoc]
    simp [hempty, hleg]
  exact ⟨htry, by unfold verify_voice; rw [if_neg (by simp [hav]), htry]⟩

/-- C2 witness: the amended theorem applied to the concrete empty-gallery
environment. -/
theorem claim2_empty_gallery_error_after_extraction_witness :
    (extract_embedding C2env.audio).1 = .returned (some [1, 0]) ∧
    (verify_voice_try (17/20) C2env = (.error 404, true) ∧
     verify_voice (17/20) C2env = (.raised 500, true)) :=
  ⟨by simp [C2env, C2audio, extract_embedding, extract_embedding_try,
      extract_embedding_rest, MAX_AUDIO_BYTES],
   claim2_empty_gallery_error_after_extraction (17/20) C2env
     ⟨some [], none, none⟩ [1, 0]
     (by simp [C2env, C2audio, extract_embedding, extract_embedding_try,
       extract_embedding_rest, MAX_AUDIO_BYTES])
     rfl (by decide) rfl⟩

lemma extract_embedding_trace_eq (env : ExtractEnv)
    (hav : env.resemblyzer_available = true) :
    (extract_embedding env).2 = (extract_embedding_try env).2 := by
  unfold extract_embedding
  rw [if_neg (by simp [hav])]
  rcases hq : extract_embedding_try env with ⟨res, tr⟩
  cases res <;> rfl

lemma extract_embedding_rest_content (env : ExtractEnv) (content : List ℚ) :
    (extract_embedding_rest env content).2.file_content = content := by
  unfold extract_embedding_rest
  rcases env.pwav with _ | w
  · rfl
  · simp only []
    split_ifs <;>
      first
        | rfl
        | (rcases env.embed_result with _ | emb <;> rfl)

lemma extract_embedding_try_reaches_duration (env : ExtractEnv)
    (hfe : env.file_exists = true) (hsz0 : env.file_size ≠ 0)
    (hszM : env.file_size ≤ MAX_AUDIO_BYTES) (hload : env.load_ok = true) :
    extract_embedding_try env =
      (if 10 < (env.samples.length : ℚ) / (env.sr : ℚ) then
        extract_embedding_rest env (env.samples.take (10 * env.sr))
      else if (env.samples.length : ℚ) / (env.sr : ℚ) < 1 then
        (.error 400, ⟨true, env.samples, false⟩)
      else extract_embedding_rest env env.samples) := by
  unfold extract_embedding_try
  rw [if_neg (by simp [hfe]), if_neg hsz0, if_neg (not_lt.mpr hszM),
    if_neg (by simp [hload])]

/-- Concrete environment for claim 4: resemblyzer imports fine and the upload
is valid, but `get_voice_encoder()` returns `None` (model load or probe
failure). -/
def C4env : ExtractEnv :=
  { resemblyzer_available := true, file_exists := true, file_size := 1000,
    load_ok := true, samples := List.replicate 2 1, sr := 1,
    pwav := some [1], encoder_available := false, embed_result := none }

/-- C4 counterexample: when the encoder fails to load (while the library import
succeeded), `extract_embedding` returns `None` instead of raising a 503 — the
internally raised 503 is swallowed by its own `except Exception` handler — and
the audio has already been preprocessed, refuting both the fail-fast-with-503
and the no-partial-processing parts of the claim. -/
theorem claim4_counterexample :
    (extract_embedding C4env).1 = .returned none ∧
    (extract_embedding C4env).1 ≠ .raised 503 ∧
    (extract_embedding C4env).2.preprocess_attempted = true := by
  refine ⟨?_, ?_, ?_⟩ <;>
    simp [C4env, extract_embedding, extract_embedding_try,
      extract_embedding_rest, MAX_AUDIO_BYTES]

/-- C4 (amended): when the encoder library itself is missing,
`extract_embedding` does fail fast with a raised 503 before any processing;
but when the library imports and the model fails to load or its probe fails
(`get_voice_encoder()` returns `None`), the 503 raised inside the `try` body is
swallowed by the catch-all handler, so `extract_embedding` returns `None` to
its callers — after preprocessing has already been attempted — instead of
propagating a 503. -/
theorem claim4_encoder_unavailable_swallowed (env : ExtractEnv)
    (hav : env.resemblyzer_available = true)
    (hfe : env.file_exists = true)
    (hsz0 : env.file_size ≠ 0)
    (hszM : env.file_size ≤ MAX_AUDIO_BYTES)
    (hload : env.load_ok = true)
    (hdur : 1 ≤ (env.samples.length : ℚ) / (env.sr : ℚ))
    (w : List ℚ) (hw : env.pwav = some w) (hwne : w.length ≠ 0)
    (henc : env.encoder_available = false) :
    ((extract_embedding_try env).1 = .error 503 ∧
     (extract_embedding env).1 = .returned none ∧
     (extract_embedding env).2.preprocess_attempted = true) ∧
    (∀ env' : ExtractEnv, env'.resemblyzer_available = false →
      extract_embedding env' = (.raised 503, ⟨false, env'.samples, false⟩)) := by
  have hrest : ∀ content, extract_embedding_rest env content =
      (.error 503, ⟨true, content, false⟩) := by
    intro content
    unfold extract_embedding_rest
    rw [hw]
    simp [hwne, henc]
  have hb := extract_embedding_try_reaches_duration env hfe hsz0 hszM hload
  have htry : (extract_embedding_try env).1 = .error 503 ∧
      (extract_embedding_try env).2.preprocess_attempted = true := by
    rw [hb]
    by_cases h10 : 10 < (env.samples.length : ℚ) / (env.sr : ℚ)
    · rw [if_pos h10, hrest]
      exact ⟨rfl, rfl⟩
    · rw [if_neg h10, if_neg (not_lt.mpr hdur), hrest]
      exact ⟨rfl, rfl⟩
  refine ⟨⟨htry.1, ?_, ?_⟩, ?_⟩
  · unfold extract_embedding
    rw [if_neg (by simp [hav])]
    rcases hq : extract_embedding_try env with ⟨res, tr⟩
    rw [hq] at htry
    cases res with
    | error e => rfl
    | ok v => exact absurd htry.1 (by simp)
  · rw [extract_embedding_trace_eq env hav]
    exact htry.2
  · intro env' h
    unfold extract_embedding
    rw [if_pos h]

/-- C4 witness: the amended theorem applied to the concrete
encoder-unavailable environment. -/
theorem claim4_encoder_unavailable_swallowed_witness :
    ((1 : ℚ) ≤ ((C4env.samples.length : ℚ) / (C4env.sr : ℚ)) ∧
     C4env.encoder_available = false) ∧
    (((extract_embedding_try C4env).1 = .error 503 ∧
      (extract_embedding C4env).1 = .returned none ∧
      (extract_embedding C4env).2.preprocess_attempted = true) ∧
     (∀ env' : ExtractEnv, env'.resemblyzer_available = false →
       extract_embedding env' = (.raised 503, ⟨false, env'.samples, false⟩))) :=
  ⟨⟨by norm_num [C4env], rfl⟩,
   claim4_encoder_unavailable_swallowed C4env rfl rfl (by norm_num [C4env])
     (by norm_num [C4env, MAX_AUDIO_BYTES]) rfl (by norm_num [C4env])
     [1] rfl (by norm_num) rfl⟩

/-- C9: once the initial resemblyzer-availability precheck passes,
`extract_embedding` never propagates an exception: every internal failure path
ends in a returned value (`None` or an embedding), because the whole body sits
inside a `try` whose `except Exception` handler returns `None`. -/
theorem claim9_extract_never_propagates (env : ExtractEnv)
    (hav : env.resemblyzer_available = true) :
    ∃ v, (extract_embedding env).1 = .returned v := by
  unfold extract_embedding
  rw [if_neg (by simp [hav])]
  rcases hq : extract_embedding_try env with ⟨res, tr⟩
  cases res with
  | error e => exact ⟨none, rfl⟩
  | ok v => exact ⟨v, rfl⟩

/-- Concrete environment for the claim-9 witness: resemblyzer available but the
audio file missing, one of the internal failure paths. -/
def C9env : ExtractEnv :=
  { resemblyzer_available := true, file_exists := false, file_size := 0,
    load_ok := false, samples := [], sr := 1,
    pwav := none, encoder_available := false, embed_result := none }

/-- C9 witness: the theorem applied to a concrete internal-failure environment. -/
theorem claim9_extract_never_propagates_witness :
    C9env.resemblyzer_available = true ∧
    (∃ v, (extract_embedding C9env).1 = .returned v) :=
  ⟨rfl, claim9_extract_never_propagates C9env rfl⟩

/-- C10: when the conditioned audio lasts more than 10 seconds,
`extract_embedding` truncates the signal to its first 10 seconds
(`y[:int(10 * sr)]`) and overwrites the file with the truncated audio, then
proceeds to embed rather than rejecting the clip; clips lasting between 1 and
10 seconds pass through untruncated. -/
theorem claim10_long_audio_truncated (env : ExtractEnv)
    (hav : env.resemblyzer_available = true)
    (hfe : env.file_exists = true)
    (hsz0 : env.file_size ≠ 0)
    (hszM : env.file_size ≤ MAX_AUDIO_BYTES)
    (hload : env.load_ok = true) :
    (10 < (env.samples.length : ℚ) / (env.sr : ℚ) →
      (extract_embedding env).2.file_content = env.samples.take (10 * env.sr) ∧
      (∀ w emb, env.pwav = some w → w.length ≠ 0 →
        env.encoder_available = true → env.embed_result = some emb →
        (extract_embedding env).1 = .returned (some emb))) ∧
    (1 ≤ (env.samples.length : ℚ) / (env.sr : ℚ) →
      (env.samples.length : ℚ) / (env.sr : ℚ) ≤ 10 →
      (extract_embedding env).2.file_content = env.samples) := by
  have hb := extract_embedding_try_reaches_duration env hfe hsz0 hszM hload
  have htr := extract_embedding_trace_eq env hav
  constructor
  · intro h10
    rw [if_pos h10] at hb
    constructor
    · rw [htr, hb, extract_embedding_rest_content]
    · intro w emb hw hwne henc hemb
      unfold extract_embedding
      rw [if_neg (by simp [hav]), hb]
      unfold extract_embedding_rest
      rw [hw]
      simp [hwne, henc, hemb]
  · intro h1le h10le
    rw [if_neg (not_lt.mpr h10le), if_neg (not_lt.mpr h1le)] at hb
    rw [htr, hb, extract_embedding_rest_content]

/-- Concrete environment for the claim-10 witness: a 12-second clip at one
sample per second. -/
def C10env : ExtractEnv :=
  { resemblyzer_available := true, file_exists := true, file_size := 1000,
    load_ok := true, samples := List.replicate 12 1, sr := 1,
    pwav := some [1], encoder_available := true, embed_result := some [2, 3] }

/-- C10 witness: the theorem applied to the concrete 12-second clip. -/
theorem claim10_long_audio_truncated_witness :
    C10env.file_size ≤ MAX_AUDIO_BYTES ∧
    ((10 < (C10env.samples.length : ℚ) / (C10env.sr : ℚ) →
      (extract_embedding C10env).2.file_content = C10env.samples.take (10 * C10env.sr) ∧
      (∀ w emb, C10env.pwav = some w → w.length ≠ 0 →
        C10env.encoder_available = true → C10env.embed_result = some emb →
        (extract_embedding C10env).1 = .returned (some emb))) ∧
    (1 ≤ (C10env.samples.length : ℚ) / (C10env.sr : ℚ) →
      (C10env.samples.length : ℚ) / (C10env.sr : ℚ) ≤ 10 →
      (extract_embedding C10env).2.file_content = C10env.samples)) :=
  ⟨by norm_num [C10env, MAX_AUDIO_BYTES],
   claim10_long_audio_truncated C10env rfl rfl (by norm_num [C10env])
     (by norm_num [C10env, MAX_AUDIO_BYTES]) rfl⟩

/-! ### SignalConditioner: the silence-trimming stage of `preprocess_audio`
(voice_processing.py lines 320-445). The pydub chunking calls are oracle
inputs (`chunks` for the -35 dB sweep, `retry` for the -25 dB retry); the
stage's result is the content finally left at `audio_path`. -/

/-- pydub `AudioSegment.normalize()` applied to the combined voice chunks,
modelled as peak normalization; only its length-preservation matters here. -/
def pydub_normalize (a : List ℚ) : List ℚ :=
  let peak := a.foldl (fun m x => max m |x|) 0
  if peak = 0 then a else a.map (fun x => x / peak)

lemma pydub_normalize_length (a : List ℚ) :
    (pydub_normalize a).length = a.length := by
  unfold pydub_normalize
  by_cases h : a.foldl (fun m x => max m |x|) 0 = 0
  · simp [h]
  · simp [h]

/-- The chunk list actually used: the -35 dB result, or the -25 dB retry when
the first `split_on_silence` call found no voice segments. -/
def effective_chunks (chunks retry : List (List ℚ)) : List (List ℚ) :=
  if chunks = [] then retry else chunks

/-- The silence-trimming stage: on a pydub exception (`exc`) or when both
chunkings find nothing, the preprocessed (denoised + normalized, pre-trim)
signal is kept; otherwise the non-silent chunks are concatenated and
re-normalized, and if that result lasts less than 0.5 s the preprocessed
signal is restored over it (the later 0.3 s final verification can only
restore the same preprocessed signal again). -/
def preprocess_silence_stage (preprocessed : List ℚ) (sr : ℕ) (exc : Bool)
    (chunks retry : List (List ℚ)) : List ℚ :=
  if exc = true then preprocessed
  else
    let eff := effective_chunks chunks retry
    if eff = [] then preprocessed
    else
      let combined := pydub_normalize eff.flatten
      if (combined.length : ℚ) / (sr : ℚ) < 1/2 then preprocessed else combined

/-- C6: whenever silence trimming would produce a result shorter than the
minimum viable duration (0.5 s in the code), the trimmed result is discarded
and the pre-trim denoised/normalized signal is the conditioning result, so
trimming never destroys the only usable audio. -/
theorem claim6_trim_fallback (preprocessed : List ℚ) (sr : ℕ)
    (chunks retry : List (List ℚ))
    (hshort : ((pydub_normalize (effective_chunks chunks retry).flatten).length : ℚ) /
      (sr : ℚ) < 1/2) :
    preprocess_silence_stage preprocessed sr false chunks retry = preprocessed := by
  unfold preprocess_silence_stage
  rw [if_neg (by simp)]
  by_cases heff : effective_chunks chunks retry = []
  · rw [if_pos heff]
  · rw [if_neg heff, if_pos hshort]

/-- C6 witness: a single 1-sample voice chunk at 4 Hz (0.25 s < 0.5 s); the
stage returns the pre-trim signal. -/
theorem claim6_trim_fallback_witness :
    (((pydub_normalize (effective_chunks [[1]] []).flatten).length : ℚ) /
      ((4 : ℕ) : ℚ) < 1/2) ∧
    preprocess_silence_stage [1, 1, 1] 4 false [[1]] [] = [1, 1, 1] :=
  ⟨by norm_num [pydub_normalize, effective_chunks],
   claim6_trim_fallback [1, 1, 1] 4 [[1]] []
     (by norm_num [pydub_normalize, effective_chunks])⟩

/-! ### EnrollmentAugmenter persistence: `store_multiple_embeddings`
(voice_processing.py lines 654-758) and
`MongoDBClient.update_user_voice_gallery` (mongodb_client.py lines 265-302). -/

/-- `update_user_voice_gallery`: a `$set` of `voice_embeddings` (and of
`voice_url` when one is given) on the user's document; returns
`modified_count > 0`, i.e. whether the document changed. The state is the
user's document (`none` = user not found). -/
def update_user_voice_gallery (db : Option VoiceDoc) (embs : List Emb)
    (url : Option String) : Option VoiceDoc × Bool :=
  match db with
  | none => (none, false)
  | some u =>
    let u' : VoiceDoc :=
      { voice_embeddings := some embs,
        voice_embedding := u.voice_embedding,
        voice_url := match url with | some v => some v | none => u.voice_url }
    (some u', decide (u' ≠ u))

/-- The database step of `store_multiple_embeddings` (lines 712-737), given the
variant embeddings that were successfully produced: if none were produced the
function returns `True` without touching the store; otherwise it reads the
user's existing `voice_embeddings` (treating a missing key or missing user as
no existing entries), appends the new ones after them, and writes the combined
list back. -/
def store_multiple_embeddings_db (db : Option VoiceDoc) (produced : List Emb)
    (url : String) : Option VoiceDoc × Bool :=
  if produced = [] then (db, true)
  else
    let existing :=
      match db with
      | some u =>
        match u.voice_embeddings with
        | some l => l
        | none => []
      | none => []
    update_user_voice_gallery db (existing ++ produced) (some url)

/-- C8: the gallery is append-only under enrollment augmentation — when the
augmenter stores newly produced embeddings for an existing user, the stored
gallery becomes exactly the previously stored entries followed by the new
ones (every prior entry is preserved, nothing is replaced or deleted) and the
update reports success; and when no variant embedding could be produced, the
store is left untouched and the step still reports success. -/
theorem claim8_gallery_append_only (db : Option VoiceDoc) (u : VoiceDoc)
    (produced : List Emb) (url : String)
    (hdb : db = some u) (hne : produced ≠ []) :
    (∃ u', store_multiple_embeddings_db db produced url = (some u', true) ∧
      u'.voice_embeddings = some (u.voice_embeddings.getD [] ++ produced) ∧
      (∀ x ∈ u.voice_embeddings.getD [], x ∈ u'.voice_embeddings.getD [])) ∧
    (∀ db' : Option VoiceDoc, store_multiple_embeddings_db db' [] url = (db', true)) := by
  constructor
  · subst hdb
    unfold store_multiple_embeddings_db
    rw [if_neg hne]
    unfold update_user_voice_gallery
    have hex : (match u.voice_embeddings with
        | some l => l
        | none => []) = u.voice_embeddings.getD [] := by
      rcases u.voice_embeddings with _ | l <;> rfl
    refine ⟨{ voice_embeddings := some (u.voice_embeddings.getD [] ++ produced),
              voice_embedding := u.voice_embedding,
              voice_url := some url }, ?_, rfl, ?_⟩
    · simp only [hex]
      congr 1
      rw [decide_eq_true_eq]
      intro hcontra
      have hemb : some (u.voice_embeddings.getD [] ++ produced) = u.voice_embeddings := by
        have := congrArg VoiceDoc.voice_embeddings hcontra
        exact this
      rcases hu : u.voice_embeddings with _ | l
      · rw [hu] at hemb
        exact Option.noConfusion hemb
      · rw [hu] at hemb
        have hl : l ++ produced = l := by simpa using hemb
        have hlen := congrArg List.length hl
        simp at hlen
        exact hne hlen
    · intro x hx
      simp [hx]
  · intro db'
    unfold store_multiple_embeddings_db
    rw [if_pos rfl]

/-- C8 witness: the theorem applied to a user with one stored embedding and
one newly produced variant embedding. -/
theorem claim8_gallery_append_only_witness :
    (some ⟨some [[1, 0]], none, none⟩ = some (⟨some [[1, 0]], none, none⟩ : VoiceDoc) ∧
      ([[0, 1]] : List Emb) ≠ []) ∧
    ((∃ u', store_multiple_embeddings_db (some ⟨some [[1, 0]], none, none⟩)
        [[0, 1]] "url" = (some u', true) ∧
      u'.voice_embeddings =
        some ((⟨some [[1, 0]], none, none⟩ : VoiceDoc).voice_embeddings.getD []
          ++ [[0, 1]]) ∧
      (∀ x ∈ (⟨some [[1, 0]], none, none⟩ : VoiceDoc).voice_embeddings.getD [],
        x ∈ u'.voice_embeddings.getD [])) ∧
    (∀ db' : Option VoiceDoc, store_multiple_embeddings_db db' [] "url" = (db', true))) :=
  ⟨⟨rfl, by decide⟩,
   claim8_gallery_append_only (some ⟨some [[1, 0]], none, none⟩)
     ⟨some [[1, 0]], none, none⟩ [[0, 1]] "url" rfl (by decide)⟩

/-! ### TempResourceManager: file-system effects of the pipeline
(`preprocess_audio` lines 160-467, `store_multiple_embeddings` lines 654-758).
The file system is the list of existing path names. -/

/-- The file-system state: the list of existing paths. -/
abbrev Fs := List String

/-- A file write (`sf.write` / pydub `export`): creates the path if absent. -/
def fsInsert (p : String) (fs : Fs) : Fs := if p ∈ fs then fs else p :: fs

/-- `if os.path.exists(path): os.remove(path)` — removing an absent path is a
tolerated no-op, as in the `finally` block of `store_multiple_embeddings`. -/
def fsRemove (fs : Fs) (p : String) : Fs := fs.filter (fun q => q ≠ p)

lemma mem_fsRemove (fs : Fs) (p q : String) :
    q ∈ fsRemove fs p ↔ q ∈ fs ∧ q ≠ p := by
  unfold fsRemove
  simp [List.mem_filter]

lemma not_mem_fsRemove_self (fs : Fs) (p : String) : p ∉ fsRemove fs p := by
  simp [mem_fsRemove]

lemma fsRemove_of_not_mem (fs : Fs) (q : String) (h : q ∉ fs) :
    fsRemove fs q = fs := by
  unfold fsRemove
  apply List.filter_eq_self.mpr
  intro a ha
  simp only [decide_eq_true_eq]
  intro hc
  exact h (hc ▸ ha)

/-- Flags selecting an exit path of `preprocess_audio`. -/
structure PreFsEnv where
  /-- the file is non-empty (`os.path.getsize` check). -/
  size_ok : Bool
  /-- `librosa.load` succeeds. -/
  load_ok : Bool
  /-- the pydub silence-detection block raises no exception. -/
  silence_ok : Bool
  /-- `split_on_silence` found non-silent chunks. -/
  chunks_found : Bool
deriving DecidableEq

/-- File-system effect of `preprocess_audio(p)`: after the librosa load
succeeds it writes `p + ".original.wav"` and `p + ".preprocessed.wav"` (and
`p + ".final.wav"` when non-silent chunks were found), besides overwriting `p`
itself; no branch of the function deletes any file. -/
def preprocess_audio_fs (fs : Fs) (p : String) (e : PreFsEnv) : Fs :=
  if p ∉ fs then fs
  else if e.size_ok = false then fs
  else if e.load_ok = false then fs
  else
    let fs1 := fsInsert (p ++ ".preprocessed.wav") (fsInsert (p ++ ".original.wav") fs)
    if e.silence_ok = true ∧ e.chunks_found = true then
      fsInsert (p ++ ".final.wav") fs1
    else fs1

/-- File-system effect of `extract_embedding(p)`: `preprocess_audio` runs after
the availability / existence / size checks; the truncation step only
overwrites `p` itself, and nothing is deleted. -/
def extract_embedding_fs (fs : Fs) (p : String) (avail : Bool) (e : PreFsEnv) : Fs :=
  if avail = true ∧ p ∈ fs ∧ e.size_ok = true then preprocess_audio_fs fs p e
  else fs

/-- Flags selecting an exit path of `store_multiple_embeddings`. -/
structure StoreFsEnv where
  /-- `RESEMBLYZER_AVAILABLE` seen by the nested `extract_embedding` calls. -/
  avail : Bool
  /-- `librosa.load` on the original recording succeeds. -/
  load_ok : Bool
  /-- `time_stretch` and the `sf.write` of variant 1 succeed. -/
  stretch_ok : Bool
  /-- `pitch_shift` and the `sf.write` of variant 2 succeed. -/
  pitch_ok : Bool
  /-- exit path of the `preprocess_audio` call nested in the variant-1 extract. -/
  pre1 : PreFsEnv
  /-- exit path of the `preprocess_audio` call nested in the variant-2 extract. -/
  pre2 : PreFsEnv
deriving DecidableEq

/-- The `try` body of `store_multiple_embeddings(user, p, url)`: early returns
when the original recording is missing or unloadable (with `temp_files` still
empty), otherwise the two variant writes plus nested `extract_embedding`
calls, with `temp_files = [temp_stretch_<p>, temp_pitch_<p>]` (both names are
appended before their `try` blocks, so they are registered even when a
variant fails). Returns the file system and the `temp_files` list. -/
def store_multiple_embeddings_fs_body (fs0 : Fs) (p : String) (e : StoreFsEnv) :
    Fs × List String :=
  if p ∉ fs0 then (fs0, [])
  else if e.load_ok = false then (fs0, [])
  else
    let temp1 := "temp_stretch_" ++ p
    let temp2 := "temp_pitch_" ++ p
    let fs1 := if e.stretch_ok = true then
      extract_embedding_fs (fsInsert temp1 fs0) temp1 e.avail e.pre1 else fs0
    let fs2 := if e.pitch_ok = true then
      extract_embedding_fs (fsInsert temp2 fs1) temp2 e.avail e.pre2 else fs1
    (fs2, [temp1, temp2])

/-- `store_multiple_embeddings`: the `try` body followed by the `finally`
block, which removes every path in `temp_files` and then the original
recording, each behind an `os.path.exists` check. -/
def store_multiple_embeddings_fs (fs0 : Fs) (p : String) (e : StoreFsEnv) : Fs :=
  fsRemove
    ((store_multiple_embeddings_fs_body fs0 p e).2.foldl fsRemove
      (store_multiple_embeddings_fs_body fs0 p e).1)
    p

lemma store_body_shape (fs0 : Fs) (p : String) (e : StoreFsEnv) :
    ((store_multiple_embeddings_fs_body fs0 p e).2 = [] ∧
      (store_multiple_embeddings_fs_body fs0 p e).1 = fs0) ∨
    (store_multiple_embeddings_fs_body fs0 p e).2 =
      ["temp_stretch_" ++ p, "temp_pitch_" ++ p] := by
  unfold store_multiple_embeddings_fs_body
  split_ifs <;> simp

/-- C3 environment: every stage of the augmentation pipeline succeeds. -/
def C3fsEnv : StoreFsEnv :=
  { avail := true, load_ok := true, stretch_ok := true, pitch_ok := true,
    pre1 := ⟨true, true, true, true⟩, pre2 := ⟨true, true, true, true⟩ }

/-- C3 counterexample: run the augmentation (`store_multiple_embeddings`) on a
file system holding only the original recording `v`, with every stage
succeeding. The intermediate conditioning copy `temp_stretch_v.original.wav`,
created during this very invocation by the nested `preprocess_audio`, is still
present when the call returns — temporary audio artifacts created during
conditioning are NOT all deleted. -/
theorem claim3_counterexample :
    ("temp_stretch_v.original.wav" ∉ (["v"] : Fs)) ∧
    "temp_stretch_v.original.wav" ∈ store_multiple_embeddings_fs ["v"] "v" C3fsEnv := by
  constructor
  · decide
  · decide

/-- C3 (amended): the cleanup in `store_multiple_embeddings`'s `finally` block
deletes the two registered temp variant files and the original recording on
every exit path — injected failures at any stage included — and removal of an
already-missing file is a tolerated no-op; however, the intermediate copies
written during conditioning (`.original.wav`, `.preprocessed.wav`,
`.final.wav`) are never deleted (see the counterexample). -/
theorem claim3_registered_temps_cleaned (fs0 : Fs) (p : String) (e : StoreFsEnv)
    (h1 : "temp_stretch_" ++ p ∉ fs0) (h2 : "temp_pitch_" ++ p ∉ fs0) :
    ("temp_stretch_" ++ p) ∉ store_multiple_embeddings_fs fs0 p e ∧
    ("temp_pitch_" ++ p) ∉ store_multiple_embeddings_fs fs0 p e ∧
    p ∉ store_multiple_embeddings_fs fs0 p e ∧
    (∀ (fs : Fs) (q : String), q ∉ fs → fsRemove fs q = fs) := by
  unfold store_multiple_embeddings_fs
  rcases store_body_shape fs0 p e with ⟨hts, hfs⟩ | hts
  · rw [hts, hfs]
    simp only [List.foldl_nil]
    refine ⟨?_, ?_, not_mem_fsRemove_self fs0 p, fsRemove_of_not_mem⟩
    · intro hmem
      exact h1 ((mem_fsRemove fs0 p _).mp hmem).1
    · intro hmem
      exact h2 ((mem_fsRemove fs0 p _).mp hmem).1
  · rw [hts]
    simp only [List.foldl_cons, List.foldl_nil]
    refine ⟨?_, ?_, not_mem_fsRemove_self _ p, fsRemove_of_not_mem⟩
    · intro hmem
      have hmem2 := ((mem_fsRemove _ p _).mp hmem).1
      have hmem3 := ((mem_fsRemove _ _ _).mp hmem2).1
      exact (not_mem_fsRemove_self _ _) hmem3
    · intro hmem
      have hmem2 := ((mem_fsRemove _ p _).mp hmem).1
      exact (not_mem_fsRemove_self _ _) hmem2

/-- C3 witness: the amended theorem applied to the all-success environment on
a file system holding only the original recording. -/
theorem claim3_registered_temps_cleaned_witness :
    ("temp_stretch_" ++ "v" ∉ (["v"] : Fs) ∧ "temp_pitch_" ++ "v" ∉ (["v"] : Fs)) ∧
    (("temp_stretch_" ++ "v") ∉ store_multiple_embeddings_fs ["v"] "v" C3fsEnv ∧
     ("temp_pitch_" ++ "v") ∉ store_multiple_embeddings_fs ["v"] "v" C3fsEnv ∧
     "v" ∉ store_multiple_embeddings_fs ["v"] "v" C3fsEnv ∧
     (∀ (fs : Fs) (q : String), q ∉ fs → fsRemove fs q = fs)) :=
  ⟨⟨by decide, by decide⟩,
   claim3_registered_temps_cleaned ["v"] "v" C3fsEnv (by decide) (by decide)⟩
